import Mathlib

/-!
Verification of a minimal Redis-compatible server (RESP codec, command
executor with TTL keyspace, replication handshake and write fan-out).

The development is a shallow embedding of the two Python source files
(src/app/resp.py and src/app/main.py).  Byte strings are modelled as
lists of naturals (each byte a value below 256); Python str values are
identified with their UTF-8 byte encodings, so the str method decode
becomes a UTF-8 validity check that keeps the bytes, and encode becomes
the identity.  Wall-clock milliseconds are modelled as rationals.
-/

namespace RedisPy

/-- Byte strings: each element is one byte (a natural below 256). -/
abbrev Bytes := List Nat

/-- The two-byte RESP terminator, carriage return followed by line feed. -/
def CRLF : Bytes := [13, 10]

/-- ASCII bytes of a Lean string literal (used only for ASCII constants). -/
def ascii (s : String) : Bytes := s.data.map Char.toNat

/-- Python byte-level whitespace test, as stripped by the int constructor:
space and the control characters 9 to 13. -/
def isWs (b : Nat) : Bool := b == 32 || (9 ≤ b && b ≤ 13)

/-- ASCII decimal digit test. -/
def isDigit (b : Nat) : Bool := 48 ≤ b && b ≤ 57

/-- Accumulating decimal reader: consumes the whole list, failing on the
first non-digit byte. -/
def goDigits (a : Nat) : Bytes → Option Nat
  | [] => some a
  | d :: r => if isDigit d then goDigits (a * 10 + (d - 48)) r else none

/-- Value of a non-empty all-digit byte string; none otherwise. -/
def digitsVal (l : Bytes) : Option Nat :=
  match l with
  | [] => none
  | _ :: _ => goDigits 0 l

/-- Strip byte-level whitespace from both ends. -/
def stripWs (l : Bytes) : Bytes :=
  ((l.dropWhile isWs).reverse.dropWhile isWs).reverse

/-- Signed decimal reader applied after whitespace stripping. -/
def pyIntCore (t : Bytes) : Option Int :=
  match t with
  | [] => none
  | b :: r =>
    if b = 43 then (digitsVal r).map Int.ofNat
    else if b = 45 then (digitsVal r).map (fun n => -(n : Int))
    else (digitsVal t).map Int.ofNat

/-- Model of the Python int constructor on a byte string: surrounding
ASCII whitespace is ignored, then an optional sign and a non-empty run of
decimal digits; anything else raises ValueError, modelled as none. -/
def pyInt (l : Bytes) : Option Int := pyIntCore (stripWs l)

/-- Big-endian decimal digits of a natural, with an accumulator. -/
def natToDigitsAux (n : Nat) (acc : Bytes) : Bytes :=
  if n < 10 then (48 + n) :: acc
  else natToDigitsAux (n / 10) ((48 + n % 10) :: acc)
termination_by n
decreasing_by exact Nat.div_lt_self (by omega) (by omega)

/-- Fuel-driven form of the digit printer; with fuel above the argument
it agrees with natToDigitsAux and, being structural, evaluates inside the
kernel. -/
def natToDigitsCore : Nat → Nat → Bytes → Bytes
  | 0, _, acc => acc
  | fuel + 1, n, acc =>
    if n < 10 then (48 + n) :: acc
    else natToDigitsCore fuel (n / 10) ((48 + n % 10) :: acc)

/-- ASCII decimal digits of a natural number, as produced by str. -/
def natToDigits (n : Nat) : Bytes := natToDigitsCore (n + 1) n []

/-- Ten to the number of decimal digits of its argument (a helper used to
state the correctness of the digit printer). -/
def npow10 (n : Nat) : Nat :=
  if n < 10 then 10 else 10 * npow10 (n / 10)
termination_by n
decreasing_by exact Nat.div_lt_self (by omega) (by omega)

/-- ASCII decimal rendering of an integer, as produced by str. -/
def intStr (i : Int) : Bytes :=
  if i < 0 then 45 :: natToDigits i.natAbs else natToDigits i.toNat

/-- ASCII lowercase folding of one byte. -/
def lowerByte (b : Nat) : Nat := if 65 ≤ b ∧ b ≤ 90 then b + 32 else b

/-- ASCII lowercase folding of a byte string, modelling str.lower on the
command name (only ASCII letters matter for the seven dispatch targets). -/
def lowerBytes (l : Bytes) : Bytes := l.map lowerByte

/-- Model of StreamReader.readuntil with the CRLF separator: returns the
bytes up to and including the first CRLF together with the remainder, or
none when no CRLF occurs (IncompleteReadError). -/
def readUntilCRLF : Bytes → Option (Bytes × Bytes)
  | [] => none
  | b :: rest =>
    if b = 13 ∧ rest.head? = some 10 then some ([13, 10], rest.tail)
    else
      match readUntilCRLF rest with
      | some (pre, r) => some (b :: pre, r)
      | none => none

/-- UTF-8 continuation byte test. -/
def isCont (b : Nat) : Bool := 128 ≤ b && b ≤ 191

/-- UTF-8 validity of a byte string, exactly the success condition of the
Python bytes method decode (overlong forms, surrogates and values beyond
U+10FFFF all rejected). -/
def isValidUtf8 : Bytes → Bool
  | [] => true
  | b :: rest =>
    if b ≤ 127 then isValidUtf8 rest
    else if 194 ≤ b && b ≤ 223 then
      match rest with
      | b2 :: r2 => isCont b2 && isValidUtf8 r2
      | [] => false
    else if b = 224 then
      match rest with
      | b2 :: b3 :: r3 => (160 ≤ b2 && b2 ≤ 191) && isCont b3 && isValidUtf8 r3
      | _ => false
    else if (225 ≤ b && b ≤ 236) || b = 238 || b = 239 then
      match rest with
      | b2 :: b3 :: r3 => isCont b2 && isCont b3 && isValidUtf8 r3
      | _ => false
    else if b = 237 then
      match rest with
      | b2 :: b3 :: r3 => (128 ≤ b2 && b2 ≤ 159) && isCont b3 && isValidUtf8 r3
      | _ => false
    else if b = 240 then
      match rest with
      | b2 :: b3 :: b4 :: r4 =>
        (144 ≤ b2 && b2 ≤ 191) && isCont b3 && isCont b4 && isValidUtf8 r4
      | _ => false
    else if 241 ≤ b && b ≤ 243 then
      match rest with
      | b2 :: b3 :: b4 :: r4 => isCont b2 && isCont b3 && isCont b4 && isValidUtf8 r4
      | _ => false
    else if b = 244 then
      match rest with
      | b2 :: b3 :: b4 :: r4 =>
        (128 ≤ b2 && b2 ≤ 143) && isCont b3 && isCont b4 && isValidUtf8 r4
      | _ => false
    else false

/-! ### The encoder (resp.py encode) -/

/-- Simple string and simple error encoding: sigil, payload, CRLF. -/
def encodeSimple (sigil : Nat) (data : Bytes) : Bytes := sigil :: data ++ CRLF

/-- Bulk string encoding: dollar sigil, decimal length, CRLF, payload, CRLF. -/
def encodeBulkString (data : Bytes) : Bytes :=
  36 :: natToDigits data.length ++ CRLF ++ data ++ CRLF

/-- Array encoding: star sigil, decimal element count, CRLF, and the
concatenation of the already-encoded elements. -/
def encodeArray (elems : List Bytes) : Bytes :=
  42 :: natToDigits elems.length ++ CRLF ++ elems.flatten

/-- The constant null bulk string. -/
def NULL_BULK_STRING : Bytes := [36, 45, 49, 13, 10]

def PONG_B : Bytes := ascii ("PONG")
def OK_B : Bytes := ascii ("OK")
def INVALID_COMMAND_B : Bytes := ascii ("Invalid Command")
def FULLRESYNC_B : Bytes := ascii ("FULLRESYNC")

/-! ### The command decoder (resp.py parse_commands) -/

/-- Body of the bulk-string reading loop of parse_commands: reads the
requested number of bulk strings, threading the remaining stream.  A
wrong sigil, a missing CRLF, a short read, a negative declared length or
a UTF-8 decoding failure all abandon the command, modelled as none. -/
def parseBulks : Nat → Bytes → Option (List Bytes × Bytes)
  | 0, s => some ([], s)
  | Nat.succ k, s =>
    match s with
    | [] => none
    | b :: r =>
      if b = 36 then
        match readUntilCRLF r with
        | none => none
        | some (line, r1) =>
          match pyInt line with
          | none => none
          | some len =>
            if len < 0 then none
            else
              let data := r1.take len.toNat
              let r2 := r1.drop len.toNat
              if r2.take 2 = CRLF then
                if isValidUtf8 data then
                  match parseBulks k (r2.drop 2) with
                  | none => none
                  | some (cs, r3) => some (data :: cs, r3)
                else none
              else none
      else none

/-- Model of parse_commands: consumes one RESP array of bulk strings from
the byte stream and returns the decoded command vector together with the
unread remainder.  Every failure path of the source returns the empty
command vector. -/
def parse_commands (input : Bytes) : List Bytes × Bytes :=
  match input with
  | [] => ([], [])
  | b :: rest =>
    if b = 42 then
      match readUntilCRLF rest with
      | none => ([], [])
      | some (line, r1) =>
        match pyInt line with
        | none => ([], r1)
        | some n =>
          if 0 < n then
            match parseBulks n.toNat r1 with
            | none => ([], [])
            | some (cs, r2) => (cs, r2)
          else ([], r1)
    else ([], rest)

/-! ### The response decoder (resp.py parse_response) -/

/-- One decoded RESP frame value, as returned by parse_response.  The
constructor pyNone models the Python fall-through return of None on an
unknown sigil or end of stream. -/
inductive RespVal where
  | bulk : Bytes → RespVal
  | simple : Bytes → RespVal
  | rerror : Bytes → RespVal
  | arr : List RespVal → RespVal
  | pyNone : RespVal

/-- Strip carriage returns and line feeds from both ends, modelling the
Python strip of the CRLF byte pair. -/
def stripCRLFEnds (l : Bytes) : Bytes :=
  ((l.dropWhile (fun b => b == 13 || b == 10)).reverse.dropWhile
    (fun b => b == 13 || b == 10)).reverse

/-- The nested parse_bulk_string of parse_response: a terminator mismatch
after the payload is not an error here, it yields the empty byte string. -/
def parseBulkResp (s : Bytes) : Option (Bytes × Bytes) :=
  match readUntilCRLF s with
  | none => none
  | some (line, r1) =>
    match pyInt line with
    | none => none
    | some len =>
      if len < 0 then some ([], [])
      else
        let data := r1.take len.toNat
        let r2 := r1.drop len.toNat
        if r2.take 2 = CRLF then some (data, r2.drop 2)
        else some ([], r2.drop 2)

/-- The nested parse_simple_string and parse_simple_error of
parse_response. -/
def parseSimpleResp (s : Bytes) : Option (Bytes × Bytes) :=
  match readUntilCRLF s with
  | none => none
  | some (line, r1) => some (stripCRLFEnds line, r1)

/-- The element loop of the nested parse_array.  The second argument is
the element register of the source loop: when the sigil matches no branch
the previous element is appended again, and on the first iteration that
register is unbound, an exception modelled as none. -/
def parseArrayLoop : Nat → Option RespVal → Bytes → Option (List RespVal × Bytes)
  | 0, _, s => some ([], s)
  | Nat.succ k, lastE, s =>
    match s with
    | [] =>
      match lastE with
      | none => none
      | some e => (parseArrayLoop k (some e) []).map (fun p => (e :: p.1, p.2))
    | b :: r =>
      if b = 36 then
        match parseBulkResp r with
        | none => none
        | some (d, r1) =>
          (parseArrayLoop k (some (RespVal.bulk d)) r1).map
            (fun p => (RespVal.bulk d :: p.1, p.2))
      else if b = 43 then
        match parseSimpleResp r with
        | none => none
        | some (d, r1) =>
          (parseArrayLoop k (some (RespVal.simple d)) r1).map
            (fun p => (RespVal.simple d :: p.1, p.2))
      else if b = 45 then
        match parseSimpleResp r with
        | none => none
        | some (d, r1) =>
          (parseArrayLoop k (some (RespVal.rerror d)) r1).map
            (fun p => (RespVal.rerror d :: p.1, p.2))
      else
        match lastE with
        | none => none
        | some e => (parseArrayLoop k (some e) r).map (fun p => (e :: p.1, p.2))

/-- Model of parse_response: consumes one top-level frame of any
supported type, returning the decoded value and the unread remainder;
none models an uncaught exception. -/
def parse_response (s : Bytes) : Option (RespVal × Bytes) :=
  match s with
  | [] => some (RespVal.pyNone, [])
  | b :: r =>
    if b = 42 then
      match readUntilCRLF r with
      | none => none
      | some (line, r1) =>
        match pyInt line with
        | none => none
        | some n =>
          if 0 < n then
            (parseArrayLoop n.toNat none r1).map (fun p => (RespVal.arr p.1, p.2))
          else some (RespVal.arr [], r1)
    else if b = 36 then (parseBulkResp r).map (fun p => (RespVal.bulk p.1, p.2))
    else if b = 43 then (parseSimpleResp r).map (fun p => (RespVal.simple p.1, p.2))
    else if b = 45 then (parseSimpleResp r).map (fun p => (RespVal.rerror p.1, p.2))
    else some (RespVal.pyNone, r)

/-! ### Keyspace and configuration -/

/-- One stored value: the payload and the optional absolute expiry in
milliseconds.  Milliseconds are rationals, standing in for the float
milliseconds of the source. -/
structure Entry where
  value : Bytes
  px : Option ℚ
deriving DecidableEq

/-- The process-wide keyspace, an insertion-ordered dictionary. -/
abbrev Store := List (Bytes × Entry)

/-- Dictionary lookup (first matching key). -/
def storeGet : Store → Bytes → Option Entry
  | [], _ => none
  | (k2, e) :: r, k => if k2 = k then some e else storeGet r k

/-- Dictionary write: overwrite the first occurrence or append. -/
def storeSet : Store → Bytes → Entry → Store
  | [], k, e => [(k, e)]
  | (k2, e2) :: r, k, e => if k2 = k then (k, e) :: r else (k2, e2) :: storeSet r k e

/-- In-place update of the px field of an existing entry, modelling the
source assignment to the px slot of the entry dictionary. -/
def storeSetPx : Store → Bytes → ℚ → Store
  | [], _, _ => []
  | (k2, e2) :: r, k, v =>
    if k2 = k then (k2, { e2 with px := some v }) :: r else (k2, e2) :: storeSetPx r k v

/-- Dictionary pop of a key. -/
def storeRemove : Store → Bytes → Store
  | [], _ => []
  | (k2, e2) :: r, k => if k2 = k then r else (k2, e2) :: storeRemove r k

/-- One configuration value: a string or an integer. -/
inductive ConfigVal where
  | s : Bytes → ConfigVal
  | i : Int → ConfigVal
deriving DecidableEq

/-- Rendering of a configuration value by str, as in the INFO body and
the FULLRESYNC offset field. -/
def pyStrOfVal : ConfigVal → Bytes
  | ConfigVal.s b => b
  | ConfigVal.i n => intStr n

/-- Modelled from the spec: the config module is not among the source
files; the spec describes it as a read-mostly name-to-section-to-value
dictionary whose replication section exposes at least role,
master_replid and master_repl_offset. -/
abbrev Config := List (Bytes × List (Bytes × ConfigVal))

/-- Assoc-list lookup for the configuration sections. -/
def cfgLookup : Config → Bytes → Option (List (Bytes × ConfigVal))
  | [], _ => none
  | (k2, v) :: r, k => if k2 = k then some v else cfgLookup r k

/-- Assoc-list lookup inside one configuration section. -/
def secLookup : List (Bytes × ConfigVal) → Bytes → Option ConfigVal
  | [], _ => none
  | (k2, v) :: r, k => if k2 = k then some v else secLookup r k

/-- Modelled from the spec: a concrete default configuration used to
instantiate witnesses, with role master, a 40-character hexadecimal
replication id and offset zero. -/
def cfgDefault : Config :=
  [(ascii ("replication"),
    [(ascii ("role"), ConfigVal.s (ascii ("master"))),
     (ascii ("master_replid"),
       ConfigVal.s (ascii ("8371b4fb1155b71f4a04d3e1bc3e18c4a990aeeb"))),
     (ascii ("master_repl_offset"), ConfigVal.i 0)])]

/-- The fixed empty-RDB snapshot constant of resp.py, given by its
hexadecimal literal. -/
def hexVal (c : Char) : Nat :=
  if 97 ≤ c.toNat then c.toNat - 87
  else if 65 ≤ c.toNat then c.toNat - 55
  else c.toNat - 48

/-- Pair up hex digit values into bytes. -/
def hexPairs : List Nat → Bytes
  | h :: l :: rest => (16 * h + l) :: hexPairs rest
  | _ => []

/-- Conversion from a hexadecimal string, modelling bytes.fromhex. -/
def hexToBytes (s : String) : Bytes := hexPairs (s.data.map hexVal)

/-- The constant snapshot blob rdb_state of resp.py. -/
def rdb_state : Bytes :=
  hexToBytes ("524544495330303131fa0972656469732d76657205372e322e30fa0a72656469732d62697473c040fa056374696d65c26d08bc65fa08757365642d6d656dc2b0c41000fa08616f662d62617365c000fff06e3bfec0ff5aa2")

/-! ### The command executor (resp.py execute_commands) -/

/-- The value returned by execute_commands: a single encoded frame, a
list of encoded frames (PSYNC), or the Python None fall-through for an
unrecognised command name. -/
inductive ExecResult where
  | frame : Bytes → ExecResult
  | frames : List Bytes → ExecResult
  | pyNone : ExecResult
deriving DecidableEq

/-- Outcome of one executor call: a normal return together with the
keyspace as left behind, or an uncaught exception (with the keyspace as
already mutated before the raise). -/
inductive ExecOutcome where
  | ok : Store → ExecResult → ExecOutcome
  | exn : Store → ExecOutcome
deriving DecidableEq

/-- Liveness test of a stored entry at the given time, following the
source condition: a missing expiry is live, and so is an expiry that is
falsy, that is exactly zero; otherwise the current time must be below
the expiry. -/
def pxLive (px : Option ℚ) (now : ℚ) : Bool :=
  match px with
  | none => true
  | some v => v == 0 || now < v

/-- Model of execute_commands.  The current wall-clock time in
milliseconds is the parameter now (the source samples time.time once per
SET and once per GET).  The configuration dictionary is a parameter in
place of the config module. -/
def execute_commands (cfg : Config) (now : ℚ) (store : Store)
    (commands : List Bytes) : ExecOutcome :=
  match commands with
  | [] => ExecOutcome.ok store (ExecResult.frame (encodeSimple 45 INVALID_COMMAND_B))
  | c0 :: args =>
    let cmd := lowerBytes c0
    if cmd = ascii ("ping") then
      ExecOutcome.ok store (ExecResult.frame (encodeSimple 43 PONG_B))
    else if cmd = ascii ("echo") then
      match args with
      | a1 :: _ => ExecOutcome.ok store (ExecResult.frame (encodeSimple 43 a1))
      | [] => ExecOutcome.exn store
    else if cmd = ascii ("set") then
      match args with
      | key :: value :: rest2 =>
        let store1 := storeSet store key { value := value, px := none }
        if commands.length = 5 then
          match rest2 with
          | _ :: pxs :: _ =>
            match pyInt pxs with
            | some px => ExecOutcome.ok (storeSetPx store1 key (now + px))
                (ExecResult.frame (encodeSimple 43 OK_B))
            | none => ExecOutcome.exn store1
          | _ => ExecOutcome.exn store1
        else ExecOutcome.ok store1 (ExecResult.frame (encodeSimple 43 OK_B))
      | _ => ExecOutcome.exn store
    else if cmd = ascii ("get") then
      match args with
      | key :: _ =>
        match storeGet store key with
        | some e =>
          if pxLive e.px now then
            ExecOutcome.ok store (ExecResult.frame (encodeBulkString e.value))
          else
            ExecOutcome.ok (storeRemove store key) (ExecResult.frame NULL_BULK_STRING)
        | none => ExecOutcome.ok store (ExecResult.frame NULL_BULK_STRING)
      | [] => ExecOutcome.exn store
    else if cmd = ascii ("info") then
      match args with
      | sect :: _ =>
        match cfgLookup cfg sect with
        | some entries =>
          ExecOutcome.ok store (ExecResult.frame (encodeBulkString
            (List.intercalate [10]
              (entries.map (fun p => p.1 ++ [58] ++ pyStrOfVal p.2)))))
        | none => ExecOutcome.exn store
      | [] => ExecOutcome.exn store
    else if cmd = ascii ("replconf") then
      ExecOutcome.ok store (ExecResult.frame (encodeSimple 43 OK_B))
    else if cmd = ascii ("psync") then
      match cfgLookup cfg (ascii ("replication")) with
      | none => ExecOutcome.exn store
      | some repl =>
        match secLookup repl (ascii ("master_replid")) with
        | some (ConfigVal.s rid) =>
          match secLookup repl (ascii ("master_repl_offset")) with
          | some offv =>
            ExecOutcome.ok store (ExecResult.frames
              [encodeSimple 43 (FULLRESYNC_B ++ [32] ++ rid ++ [32] ++ pyStrOfVal offv),
               36 :: natToDigits rdb_state.length ++ CRLF ++ rdb_state])
          | none => ExecOutcome.exn store
        | _ => ExecOutcome.exn store
    else ExecOutcome.ok store ExecResult.pyNone

/-- The seven recognised command names, in the dispatch order of the
executor. -/
def knownCommands : List Bytes :=
  [ascii ("ping"), ascii ("echo"), ascii ("set"), ascii ("get"),
   ascii ("info"), ascii ("replconf"), ascii ("psync")]

/-! ### The connection task (main.py handler) -/

/-- Per-connection view of the server state: the keyspace, the replica
registry (one outbound byte-blob buffer per registered replica), the
blobs written to this connection client socket, and the current binding
of the local variable writer, which the fan-out loop of the source
rebinds to the last replica writer. -/
structure ConnState where
  store : Store
  replicas : List (List Bytes)
  clientOut : List Bytes
  shadow : Option Nat
deriving DecidableEq

/-- Write one blob to whatever the local variable writer currently
denotes: the client socket, or a replica sink after the fan-out loop has
rebound it. -/
def writeCur (st : ConnState) (blob : Bytes) : ConnState :=
  match st.shadow with
  | none => { st with clientOut := st.clientOut ++ [blob] }
  | some i => { st with replicas := st.replicas.set i ((st.replicas.getD i []) ++ [blob]) }

/-- The replica-registration condition at the top of the handler loop:
evaluates to none when indexing raises, to the grown registry on a
REPLCONF listening-port command, and to the unchanged state otherwise. -/
def regCheck (st : ConnState) (commands : List Bytes) : Option ConnState :=
  match commands with
  | [] => some st
  | c0 :: rest =>
    if lowerBytes c0 = ascii ("replconf") then
      match rest with
      | [] => none
      | a1 :: _ =>
        if a1 = ascii ("listening-port") then
          some { st with replicas := st.replicas ++ [[]] }
        else some st
    else some st

/-- Write the executor result to the current writer binding; writing the
Python None result raises, modelled as none. -/
def writeResult (st : ConnState) (r : ExecResult) : Option ConnState :=
  match r with
  | ExecResult.frame b => some (writeCur st b)
  | ExecResult.frames l => some (l.foldl writeCur st)
  | ExecResult.pyNone => none

/-- The fan-out loop of the handler: append the re-encoded command to
every registered replica buffer in order; when the registry is non-empty
the loop leaves the local variable writer bound to the last replica. -/
def fanOut (st : ConnState) (blob : Bytes) : ConnState :=
  if st.replicas.isEmpty then st
  else { st with replicas := st.replicas.map (fun buf => buf ++ [blob]),
                 shadow := some (st.replicas.length - 1) }

/-- One iteration of the handler loop on an already-parsed command
vector: registration check, executor call, response write, re-encoding,
and conditional fan-out.  The boolean is true when the iteration raises
an uncaught exception, ending the connection task. -/
def handlerStep (cfg : Config) (now : ℚ) (st0 : ConnState)
    (commands : List Bytes) : ConnState × Bool :=
  match regCheck st0 commands with
  | none => (st0, true)
  | some st1 =>
    match execute_commands cfg now st1.store commands with
    | ExecOutcome.exn store2 => ({ st1 with store := store2 }, true)
    | ExecOutcome.ok store2 r =>
      let st2 := { st1 with store := store2 }
      match writeResult st2 r with
      | none => (st2, true)
      | some st3 =>
        let cb := encodeArray (commands.map encodeBulkString)
        match commands with
        | [] => (st3, true)
        | c0 :: _ =>
          if lowerBytes c0 = ascii ("set") then (fanOut st3 cb, false)
          else (st3, false)

/-- Iterated handler loop over a list of timed command vectors, stopping
at the first uncaught exception. -/
def runSteps (cfg : Config) : ConnState → List (ℚ × List Bytes) → ConnState × Bool
  | st, [] => (st, false)
  | st, (t, c) :: rest =>
    match handlerStep cfg t st c with
    | (st1, true) => (st1, true)
    | (st1, false) => runSteps cfg st1 rest

/-- A SET command vector on which the handler iteration completes
without an exception: at least three elements, first element lowering to
set, and, when the vector has exactly five elements, a fifth element the
int constructor accepts. -/
def goodSet (c : List Bytes) : Bool :=
  match c with
  | c0 :: _ :: _ :: _ =>
    lowerBytes c0 == ascii ("set") &&
      (c.length != 5 || (pyInt (c.getD 4 [])).isSome)
  | _ => false

/-! ### The replica-side handshake (main.py send_handshake) -/

/-- The first handshake request of send_handshake. -/
def handshakeReq1 : Bytes := encodeArray [encodeBulkString (ascii ("ping"))]

/-- The second handshake request of send_handshake; the port field is
the string literal 6380 of the source. -/
def handshakeReq2 : Bytes :=
  encodeArray [encodeBulkString (ascii ("replconf")),
    encodeBulkString (ascii ("listening-port")),
    encodeBulkString (ascii ("6380"))]

/-- The third handshake request of send_handshake. -/
def handshakeReq3 : Bytes :=
  encodeArray [encodeBulkString (ascii ("replconf")),
    encodeBulkString (ascii ("capa")), encodeBulkString (ascii ("psync2"))]

/-- The fourth handshake request of send_handshake. -/
def handshakeReq4 : Bytes :=
  encodeArray [encodeBulkString (ascii ("psync")),
    encodeBulkString (ascii ("?")), encodeBulkString (ascii ("-1"))]

/-- Model of send_handshake over the stream of bytes arriving from the
primary: the four fixed requests are written, each followed by one
parse_response call; the function returns the requests written and the
part of the inbound stream it never consumed.  It contains no further
reading loop and never invokes the executor. -/
def send_handshake (s : Bytes) : Option (List Bytes × Bytes) :=
  match parse_response s with
  | none => none
  | some (_, s1) =>
    match parse_response s1 with
    | none => none
    | some (_, s2) =>
      match parse_response s2 with
      | none => none
      | some (_, s3) =>
        match parse_response s3 with
        | none => none
        | some (_, s4) =>
          some ([handshakeReq1, handshakeReq2, handshakeReq3, handshakeReq4], s4)

/-- Modelled from the spec: the second handshake request as the spec
states it, carrying the listening port this node itself was started
with (the -p or --port value, default 6379). -/
def specListeningPortRequest (port : Nat) : Bytes :=
  encodeArray [encodeBulkString (ascii ("replconf")),
    encodeBulkString (ascii ("listening-port")),
    encodeBulkString (natToDigits port)]

/-! ## Infrastructure lemmas: decimal digits and the int reader -/

theorem natToDigitsAux_lt {n : Nat} (h : n < 10) (acc : Bytes) :
    natToDigitsAux n acc = (48 + n) :: acc := by
  rw [natToDigitsAux]
  simp [h]

theorem natToDigitsAux_ge {n : Nat} (h : ¬ n < 10) (acc : Bytes) :
    natToDigitsAux n acc = natToDigitsAux (n / 10) ((48 + n % 10) :: acc) := by
  rw [natToDigitsAux]
  simp [h]

theorem npow10_lt {n : Nat} (h : n < 10) : npow10 n = 10 := by
  rw [npow10]
  simp [h]

theorem npow10_ge {n : Nat} (h : ¬ n < 10) : npow10 n = 10 * npow10 (n / 10) := by
  rw [npow10]
  simp [h]

theorem natToDigitsAux_digits : ∀ (n : Nat) (acc : Bytes),
    (∀ b ∈ acc, 48 ≤ b ∧ b ≤ 57) → ∀ b ∈ natToDigitsAux n acc, 48 ≤ b ∧ b ≤ 57 := by
  intro n
  induction n using Nat.strong_induction_on with
  | _ n ih =>
    intro acc hacc b hb
    by_cases h : n < 10
    · rw [natToDigitsAux_lt h] at hb
      rcases List.mem_cons.mp hb with h1 | h1
      · subst h1; omega
      · exact hacc _ h1
    · rw [natToDigitsAux_ge h] at hb
      refine ih (n / 10) (Nat.div_lt_self (by omega) (by omega)) _ ?_ b hb
      intro x hx
      rcases List.mem_cons.mp hx with h1 | h1
      · have := Nat.mod_lt n (show 0 < 10 by omega)
        omega
      · exact hacc _ h1

theorem natToDigitsCore_eq : ∀ (fuel n : Nat) (acc : Bytes), n < fuel →
    natToDigitsCore fuel n acc = natToDigitsAux n acc := by
  intro fuel
  induction fuel with
  | zero => intro n acc h; omega
  | succ f ih =>
    intro n acc h
    by_cases h10 : n < 10
    · rw [natToDigitsCore, if_pos h10, natToDigitsAux_lt h10]
    · rw [natToDigitsCore, if_neg h10, natToDigitsAux_ge h10]
      refine ih (n / 10) _ ?_
      have := Nat.div_lt_self (show 0 < n by omega) (show 1 < 10 by omega)
      omega

theorem natToDigits_eq (n : Nat) : natToDigits n = natToDigitsAux n [] :=
  natToDigitsCore_eq (n + 1) n [] (Nat.lt_succ_self n)

theorem natToDigits_digits (n : Nat) : ∀ b ∈ natToDigits n, 48 ≤ b ∧ b ≤ 57 := by
  rw [natToDigits_eq]
  exact natToDigitsAux_digits n [] (by simp)

theorem natToDigitsAux_ne_nil : ∀ (n : Nat) (acc : Bytes), natToDigitsAux n acc ≠ [] := by
  intro n
  induction n using Nat.strong_induction_on with
  | _ n ih =>
    intro acc
    by_cases h : n < 10
    · rw [natToDigitsAux_lt h]
      simp
    · rw [natToDigitsAux_ge h]
      exact ih _ (Nat.div_lt_self (by omega) (by omega)) _

theorem goDigits_natToDigitsAux : ∀ (n a : Nat) (rest : Bytes),
    goDigits a (natToDigitsAux n rest) = goDigits (a * npow10 n + n) rest := by
  intro n
  induction n using Nat.strong_induction_on with
  | _ n ih =>
    intro a rest
    by_cases h : n < 10
    · rw [natToDigitsAux_lt h, npow10_lt h]
      have hd : isDigit (48 + n) = true := by
        simp [isDigit]
        omega
      simp only [goDigits, hd, if_true]
      congr 1
      omega
    · rw [natToDigitsAux_ge h, npow10_ge h,
        ih (n / 10) (Nat.div_lt_self (by omega) (by omega))]
      have hd : isDigit (48 + n % 10) = true := by
        have := Nat.mod_lt n (show 0 < 10 by omega)
        simp [isDigit]
        omega
      simp only [goDigits, hd, if_true]
      congr 1
      have key : ∀ q : Nat, (q + n / 10) * 10 + (48 + n % 10 - 48) = q * 10 + n := by
        intro q
        omega
      rw [key (a * npow10 (n / 10))]
      ring

theorem digitsVal_natToDigits (n : Nat) : digitsVal (natToDigits n) = some n := by
  have h := goDigits_natToDigitsAux n 0 []
  rw [Nat.zero_mul, Nat.zero_add] at h
  have hne := natToDigitsAux_ne_nil n []
  rw [natToDigits_eq]
  cases hl : natToDigitsAux n [] with
  | nil => exact absurd hl hne
  | cons d l =>
    rw [hl] at h
    simpa [digitsVal, goDigits] using h

theorem isWs_digit_false {b : Nat} (h1 : 48 ≤ b) : isWs b = false := by
  simp [isWs]
  omega

theorem dropWhile_isWs_reverse_digits {m : Bytes} (hne : m ≠ [])
    (hd : ∀ b ∈ m, 48 ≤ b ∧ b ≤ 57) : m.reverse.dropWhile isWs = m.reverse := by
  cases hr : m.reverse with
  | nil =>
    rw [List.reverse_eq_nil_iff] at hr
    exact absurd hr hne
  | cons e es =>
    have he : e ∈ m := by
      have h2 : e ∈ m.reverse := by
        rw [hr]
        exact List.mem_cons_self e es
      simpa using h2
    rw [List.dropWhile_cons, isWs_digit_false (hd e he).1]
    simp

theorem stripWs_digits_crlf (l : Bytes) (hne : l ≠ [])
    (hd : ∀ b ∈ l, 48 ≤ b ∧ b ≤ 57) : stripWs (l ++ [13, 10]) = l := by
  obtain ⟨d, l2, rfl⟩ := List.exists_cons_of_ne_nil hne
  unfold stripWs
  rw [List.cons_append, List.dropWhile_cons,
    isWs_digit_false (hd d (List.mem_cons_self d l2)).1]
  simp only [Bool.false_eq_true, if_false]
  have h2 : (d :: (l2 ++ [13, 10])).reverse = 10 :: 13 :: (d :: l2).reverse := by
    simp
  rw [h2, List.dropWhile_cons, List.dropWhile_cons,
    show isWs 10 = true from by decide, show isWs 13 = true from by decide]
  simp only [if_true]
  rw [dropWhile_isWs_reverse_digits (List.cons_ne_nil d l2) hd, List.reverse_reverse]

theorem pyInt_digits_crlf (n : Nat) : pyInt (natToDigits n ++ [13, 10]) = some (n : Int) := by
  unfold pyInt
  rw [stripWs_digits_crlf (natToDigits n)
    (by rw [natToDigits_eq]; exact natToDigitsAux_ne_nil n []) (natToDigits_digits n)]
  have hne := natToDigitsAux_ne_nil n []
  cases hl : natToDigitsAux n [] with
  | nil => exact absurd hl hne
  | cons d l =>
    have hd : 48 ≤ d := by
      refine (natToDigits_digits n d ?_).1
      rw [natToDigits_eq, hl]
      exact List.mem_cons_self d l
    have hv : digitsVal (d :: l) = some n := by
      rw [← hl, ← natToDigits_eq]
      exact digitsVal_natToDigits n
    rw [natToDigits_eq, hl]
    rw [pyIntCore, if_neg (by omega), if_neg (by omega), hv]
    rfl

/-! ## Codec round-trip lemmas -/

theorem readUntilCRLF_append (l r : Bytes) (hl : ∀ b ∈ l, b ≠ 13) :
    readUntilCRLF (l ++ 13 :: 10 :: r) = some (l ++ [13, 10], r) := by
  induction l with
  | nil =>
    rw [List.nil_append, readUntilCRLF]
    simp
  | cons b l ih =>
    rw [List.cons_append, readUntilCRLF,
      if_neg (by simp [hl b (List.mem_cons_self b l)]),
      ih (fun x hx => hl x (List.mem_cons_of_mem b hx))]
    simp

theorem natToDigits_no_cr (n : Nat) : ∀ b ∈ natToDigits n, b ≠ 13 := by
  intro b hb
  have := natToDigits_digits n b hb
  omega

theorem parseBulks_encode (d : Bytes) (hv : isValidUtf8 d = true) (k : Nat) (rest : Bytes) :
    parseBulks (k + 1) (encodeBulkString d ++ rest) =
      (parseBulks k rest).map (fun p => (d :: p.1, p.2)) := by
  have hshape : encodeBulkString d ++ rest =
      36 :: (natToDigits d.length ++ 13 :: 10 :: (d ++ 13 :: 10 :: rest)) := by
    rw [encodeBulkString, CRLF]
    simp
  rw [hshape, parseBulks, if_pos rfl,
    readUntilCRLF_append _ _ (natToDigits_no_cr d.length)]
  dsimp only
  rw [pyInt_digits_crlf]
  dsimp only
  have hnonneg : ¬ ((d.length : Int) < 0) := by omega
  rw [if_neg hnonneg]
  simp only [Int.toNat_ofNat]
  rw [List.take_left, List.drop_left]
  have htake : (13 :: 10 :: rest).take 2 = CRLF := rfl
  rw [htake, if_pos rfl, hv, if_pos rfl]
  have hdrop : (13 :: 10 :: rest).drop 2 = rest := rfl
  rw [hdrop]
  cases parseBulks k rest with
  | none => rfl
  | some p => rfl

theorem parseBulks_encodeList (c : List Bytes) (hv : ∀ d ∈ c, isValidUtf8 d = true) :
    parseBulks c.length ((c.map encodeBulkString).flatten) = some (c, []) := by
  induction c with
  | nil => rfl
  | cons d c ih =>
    rw [List.map_cons, List.flatten_cons, List.length_cons,
      parseBulks_encode d (hv d (List.mem_cons_self d c)) c.length,
      ih (fun x hx => hv x (List.mem_cons_of_mem d hx))]
    rfl

/-- C1, amended form: the codec round trip holds for every command vector
whose elements are valid UTF-8 byte strings (the decoder re-decodes each
payload as UTF-8, so this is the exact domain on which it succeeds). -/
theorem parse_commands_encode (c : List Bytes) (hv : ∀ d ∈ c, isValidUtf8 d = true) :
    parse_commands (encodeArray (c.map encodeBulkString)) = (c, []) := by
  have hshape : encodeArray (c.map encodeBulkString) =
      42 :: (natToDigits c.length ++ 13 :: 10 :: (c.map encodeBulkString).flatten) := by
    rw [encodeArray, CRLF]
    simp
  rw [hshape, parse_commands, if_pos rfl,
    readUntilCRLF_append _ _ (natToDigits_no_cr c.length)]
  dsimp only
  rw [pyInt_digits_crlf]
  dsimp only
  cases c with
  | nil => rfl
  | cons d c =>
    have hpos : (0 : Int) < ((d :: c).length : Int) := by
      simp
    rw [if_pos hpos]
    simp only [Int.toNat_ofNat]
    rw [parseBulks_encodeList (d :: c) hv]

/-! ## Keyspace lemmas -/

theorem storeGet_storeSet_self (s : Store) (k : Bytes) (e : Entry) :
    storeGet (storeSet s k e) k = some e := by
  induction s with
  | nil => simp [storeSet, storeGet]
  | cons p r ih =>
    obtain ⟨k2, e2⟩ := p
    by_cases h : k2 = k
    · simp [storeSet, h, storeGet]
    · simp [storeSet, h, storeGet, ih]

theorem storeSetPx_storeSet (s : Store) (k : Bytes) (e : Entry) (v : ℚ) :
    storeSetPx (storeSet s k e) k v = storeSet s k { e with px := some v } := by
  induction s with
  | nil => simp [storeSet, storeSetPx]
  | cons p r ih =>
    obtain ⟨k2, e2⟩ := p
    by_cases h : k2 = k
    · simp [storeSet, h, storeSetPx]
    · simp [storeSet, h, storeSetPx, ih]

theorem storeRemove_storeSet (s : Store) (k : Bytes) (e : Entry) :
    storeRemove (storeSet s k e) k = storeRemove s k := by
  induction s with
  | nil => simp [storeSet, storeRemove]
  | cons p r ih =>
    obtain ⟨k2, e2⟩ := p
    by_cases h : k2 = k
    · simp [storeSet, h, storeRemove]
    · simp [storeSet, h, storeRemove, ih]

theorem storeGet_not_mem (s : Store) (k : Bytes) (h : k ∉ s.map Prod.fst) :
    storeGet s k = none := by
  induction s with
  | nil => rfl
  | cons p r ih =>
    obtain ⟨k2, e2⟩ := p
    simp only [List.map_cons, List.mem_cons] at h
    push_neg at h
    rw [storeGet, if_neg (fun hh => h.1 hh.symm)]
    exact ih h.2

theorem storeGet_storeRemove_self (s : Store) (k : Bytes)
    (h : (s.map Prod.fst).Nodup) : storeGet (storeRemove s k) k = none := by
  induction s with
  | nil => rfl
  | cons p r ih =>
    obtain ⟨k2, e2⟩ := p
    simp only [List.map_cons, List.nodup_cons] at h
    by_cases hk : k2 = k
    · rw [storeRemove, if_pos hk]
      subst hk
      exact storeGet_not_mem r k2 h.1
    · rw [storeRemove, if_neg hk, storeGet, if_neg hk]
      exact ih h.2

/-! ## Executor evaluation lemmas -/

theorem exec_set5 (cfg : Config) (t : ℚ) (s : Store)
    (c0 K V a3 kstr : Bytes) (k : Int)
    (h0 : lowerBytes c0 = ascii ("set")) (hk : pyInt kstr = some k) :
    execute_commands cfg t s [c0, K, V, a3, kstr] =
      ExecOutcome.ok (storeSet s K { value := V, px := some (t + k) })
        (ExecResult.frame (encodeSimple 43 OK_B)) := by
  rw [execute_commands]
  rw [h0, if_neg (by decide), if_neg (by decide), if_pos rfl]
  dsimp only
  rw [if_pos (show ([c0, K, V, a3, kstr] : List Bytes).length = 5 from rfl), hk]
  dsimp only
  rw [storeSetPx_storeSet]

theorem exec_set4 (cfg : Config) (t : ℚ) (s : Store) (c0 K V a3 : Bytes)
    (h0 : lowerBytes c0 = ascii ("set")) :
    execute_commands cfg t s [c0, K, V, a3] =
      ExecOutcome.ok (storeSet s K { value := V, px := none })
        (ExecResult.frame (encodeSimple 43 OK_B)) := by
  rw [execute_commands]
  rw [h0, if_neg (by decide), if_neg (by decide), if_pos rfl]
  dsimp only
  rw [if_neg (by simp)]

theorem exec_set3 (cfg : Config) (t : ℚ) (s : Store) (c0 K V : Bytes)
    (h0 : lowerBytes c0 = ascii ("set")) :
    execute_commands cfg t s [c0, K, V] =
      ExecOutcome.ok (storeSet s K { value := V, px := none })
        (ExecResult.frame (encodeSimple 43 OK_B)) := by
  rw [execute_commands]
  rw [h0, if_neg (by decide), if_neg (by decide), if_pos rfl]
  dsimp only
  rw [if_neg (by simp)]

theorem exec_get_found (cfg : Config) (t : ℚ) (s : Store) (g K : Bytes) (e : Entry)
    (hg : lowerBytes g = ascii ("get")) (hs : storeGet s K = some e) :
    execute_commands cfg t s [g, K] =
      (if pxLive e.px t then
        ExecOutcome.ok s (ExecResult.frame (encodeBulkString e.value))
      else
        ExecOutcome.ok (storeRemove s K) (ExecResult.frame NULL_BULK_STRING)) := by
  rw [execute_commands]
  rw [hg, if_neg (by decide), if_neg (by decide), if_neg (by decide), if_pos rfl]
  rw [hs]

theorem exec_get_absent (cfg : Config) (t : ℚ) (s : Store) (g K : Bytes)
    (hg : lowerBytes g = ascii ("get")) (hs : storeGet s K = none) :
    execute_commands cfg t s [g, K] =
      ExecOutcome.ok s (ExecResult.frame NULL_BULK_STRING) := by
  rw [execute_commands]
  rw [hg, if_neg (by decide), if_neg (by decide), if_neg (by decide), if_pos rfl]
  rw [hs]

theorem exec_unknown (cfg : Config) (t : ℚ) (s : Store) (c0 : Bytes) (args : List Bytes)
    (h : lowerBytes c0 ∉ knownCommands) :
    execute_commands cfg t s (c0 :: args) = ExecOutcome.ok s ExecResult.pyNone := by
  simp only [knownCommands, List.mem_cons, List.mem_singleton] at h
  push_neg at h
  obtain ⟨h1, h2, h3, h4, h5, h6, h7, _⟩ := h
  rw [execute_commands.eq_def]
  dsimp only
  rw [if_neg h1, if_neg h2, if_neg h3, if_neg h4, if_neg h5, if_neg h6, if_neg h7]

/-! ## Claim C1: codec round trip -/

/-- C1 counterexample: a command vector whose single element is the lone
byte 255 is not valid UTF-8; its encoding decodes to the empty command
vector rather than round-tripping, so the claim fails for arbitrary byte
strings. -/
theorem c1_counterexample :
    (parse_commands (encodeArray ([[255]].map encodeBulkString))).1 ≠ [[255]] := by
  decide

/-- Witness for the amended C1 round trip at a concrete command vector. -/
theorem parse_commands_encode_witness :
    (∀ d ∈ [ascii ("echo"), ascii ("hi")], isValidUtf8 d = true) ∧
    parse_commands (encodeArray ([ascii ("echo"), ascii ("hi")].map encodeBulkString)) =
      ([ascii ("echo"), ascii ("hi")], []) :=
  ⟨by decide, parse_commands_encode [ascii ("echo"), ascii ("hi")] (by decide)⟩

/-! ## Claim C2: unknown command names -/

/-- C2 counterexample: for the unknown one-byte command name x the
executor falls through and returns the Python value None, not the Simple
Error Invalid Command frame the claim states. -/
theorem c2_counterexample :
    execute_commands cfgDefault 0 [] [[120]] = ExecOutcome.ok [] ExecResult.pyNone ∧
    execute_commands cfgDefault 0 [] [[120]] ≠
      ExecOutcome.ok [] (ExecResult.frame (encodeSimple 45 INVALID_COMMAND_B)) := by
  refine ⟨rfl, ?_⟩
  decide

/-- C2, amended: the executor returns the Simple Error Invalid Command
frame exactly for the empty command vector; for a non-empty vector whose
lowercased first element is none of the seven known commands it falls
through and returns the Python value None, producing no frame at all. -/
theorem c2_amended (cfg : Config) (t : ℚ) (s : Store)
    (c0 : Bytes) (args : List Bytes) (h : lowerBytes c0 ∉ knownCommands) :
    execute_commands cfg t s (c0 :: args) = ExecOutcome.ok s ExecResult.pyNone ∧
    execute_commands cfg t s [] =
      ExecOutcome.ok s (ExecResult.frame (encodeSimple 45 INVALID_COMMAND_B)) :=
  ⟨exec_unknown cfg t s c0 args h, rfl⟩

/-- Witness for the amended C2 at the concrete unknown command zap. -/
theorem c2_amended_witness :
    (lowerBytes (ascii ("zap")) ∉ knownCommands) ∧
    (execute_commands cfgDefault 0 [] [ascii ("zap")] =
        ExecOutcome.ok [] ExecResult.pyNone ∧
      execute_commands cfgDefault 0 [] [] =
        ExecOutcome.ok [] (ExecResult.frame (encodeSimple 45 INVALID_COMMAND_B))) :=
  ⟨by decide, c2_amended cfgDefault 0 [] (ascii ("zap")) [] (by decide)⟩

/-! ## Claim C9: SET dispatches on vector length alone -/

/-- C9: SET parses its optional arguments by vector length alone.  With
five arguments the stored expiry is now plus the fourth argument parsed
as decimal milliseconds, whatever the third argument holds (it is
quantified freely here and never inspected); with four arguments the
extra argument is ignored, the key is stored without expiry, and Simple
String OK is returned. -/
theorem c9_set_by_length (cfg : Config) (t : ℚ) (s : Store)
    (c0 K V a3 kstr : Bytes) (k : Int)
    (h0 : lowerBytes c0 = ascii ("set")) (hk : pyInt kstr = some k) :
    execute_commands cfg t s [c0, K, V, a3, kstr] =
      ExecOutcome.ok (storeSet s K { value := V, px := some (t + k) })
        (ExecResult.frame (encodeSimple 43 OK_B)) ∧
    execute_commands cfg t s [c0, K, V, a3] =
      ExecOutcome.ok (storeSet s K { value := V, px := none })
        (ExecResult.frame (encodeSimple 43 OK_B)) :=
  ⟨exec_set5 cfg t s c0 K V a3 kstr k h0 hk, exec_set4 cfg t s c0 K V a3 h0⟩

/-- Witness for C9 with an arbitrary junk flag in place of PX. -/
theorem c9_set_by_length_witness :
    (lowerBytes (ascii ("SET")) = ascii ("set")) ∧
    (pyInt (ascii ("100")) = some 100) ∧
    (execute_commands cfgDefault 7 [] [ascii ("SET"), ascii ("k"), ascii ("v"),
        ascii ("junk"), ascii ("100")] =
      ExecOutcome.ok (storeSet [] (ascii ("k"))
          { value := ascii ("v"), px := some (7 + (100 : Int)) })
        (ExecResult.frame (encodeSimple 43 OK_B)) ∧
    execute_commands cfgDefault 7 [] [ascii ("SET"), ascii ("k"), ascii ("v"),
        ascii ("junk")] =
      ExecOutcome.ok (storeSet [] (ascii ("k")) { value := ascii ("v"), px := none })
        (ExecResult.frame (encodeSimple 43 OK_B))) :=
  ⟨by decide, by decide,
    c9_set_by_length cfgDefault 7 [] (ascii ("SET")) (ascii ("k")) (ascii ("v"))
      (ascii ("junk")) (ascii ("100")) 100 (by decide) (by decide)⟩

/-! ## Claim C10: the legal empty array and a parse error coincide -/

/-- C10: the well-formed empty RESP array decodes to the empty command
vector, which is the very result the decoder returns on a parse error
(here: a stream whose first sigil is a plus sign), and the executor maps
the empty vector to the Simple Error Invalid Command frame, so the two
situations are indistinguishable at the interface. -/
theorem c10_empty_array :
    parse_commands [42, 48, 13, 10] = ([], []) ∧
    (parse_commands [43, 79, 75, 13, 10]).1 = [] ∧
    (parse_commands [42, 48, 13, 10]).1 = (parse_commands [43, 79, 75, 13, 10]).1 ∧
    execute_commands cfgDefault 0 [] [] =
      ExecOutcome.ok [] (ExecResult.frame (encodeSimple 45 INVALID_COMMAND_B)) := by
  exact ⟨by decide, by decide, by decide, rfl⟩

/-! ## Claim C5: the PSYNC double frame -/

/-- C5: for every PSYNC command the executor returns exactly two frames
in order: the Simple String FULLRESYNC line with the space-separated
replication id and offset taken from the replication configuration, then
the bare blob of a dollar sigil, the decimal payload length, one CRLF and
the fixed empty-RDB constant with no trailing CRLF; that constant is 88
bytes long. -/
theorem c5_psync_two_frames (cfg : Config) (t : ℚ) (s : Store)
    (c0 : Bytes) (args : List Bytes) (repl : List (Bytes × ConfigVal))
    (rid : Bytes) (offv : ConfigVal)
    (h0 : lowerBytes c0 = ascii ("psync"))
    (h1 : cfgLookup cfg (ascii ("replication")) = some repl)
    (h2 : secLookup repl (ascii ("master_replid")) = some (ConfigVal.s rid))
    (h3 : secLookup repl (ascii ("master_repl_offset")) = some offv) :
    execute_commands cfg t s (c0 :: args) =
      ExecOutcome.ok s (ExecResult.frames
        [encodeSimple 43 (FULLRESYNC_B ++ [32] ++ rid ++ [32] ++ pyStrOfVal offv),
         36 :: natToDigits rdb_state.length ++ CRLF ++ rdb_state]) ∧
    rdb_state.length = 88 := by
  refine ⟨?_, by decide⟩
  rw [execute_commands.eq_def]
  dsimp only
  rw [h0, if_neg (by decide), if_neg (by decide), if_neg (by decide),
    if_neg (by decide), if_neg (by decide), if_neg (by decide), if_pos rfl, h1]
  dsimp only
  rw [h2]
  dsimp only
  rw [h3]

/-- Witness for C5 against the concrete default configuration. -/
theorem c5_psync_two_frames_witness :
    execute_commands cfgDefault 0 [] [ascii ("psync"), ascii ("?"), ascii ("-1")] =
      ExecOutcome.ok [] (ExecResult.frames
        [encodeSimple 43 (FULLRESYNC_B ++ [32] ++
          ascii ("8371b4fb1155b71f4a04d3e1bc3e18c4a990aeeb") ++ [32] ++
          pyStrOfVal (ConfigVal.i 0)),
         36 :: natToDigits rdb_state.length ++ CRLF ++ rdb_state]) ∧
    rdb_state.length = 88 :=
  c5_psync_two_frames cfgDefault 0 [] (ascii ("psync")) [ascii ("?"), ascii ("-1")]
    [(ascii ("role"), ConfigVal.s (ascii ("master"))),
     (ascii ("master_replid"),
       ConfigVal.s (ascii ("8371b4fb1155b71f4a04d3e1bc3e18c4a990aeeb"))),
     (ascii ("master_repl_offset"), ConfigVal.i 0)]
    (ascii ("8371b4fb1155b71f4a04d3e1bc3e18c4a990aeeb")) (ConfigVal.i 0)
    (by decide) rfl rfl rfl

/-! ## Claim C4: TTL monotonicity -/

/-- C4 counterexample: SET k v PX -1000 issued at time 1000 stores the
expiry timestamp 0, which the liveness test of GET treats as falsy, that
is as no expiry at all; a GET at time 2000, far past the expiry, then
returns the stored value instead of the null bulk string the claim
demands for every time at or after the expiry. -/
theorem c4_counterexample :
    execute_commands cfgDefault 1000 []
        [ascii ("set"), ascii ("k"), ascii ("v"), ascii ("px"), ascii ("-1000")] =
      ExecOutcome.ok [(ascii ("k"), { value := ascii ("v"), px := some 0 })]
        (ExecResult.frame (encodeSimple 43 OK_B)) ∧
    execute_commands cfgDefault 2000
        [(ascii ("k"), { value := ascii ("v"), px := some 0 })]
        [ascii ("get"), ascii ("k")] =
      ExecOutcome.ok [(ascii ("k"), { value := ascii ("v"), px := some 0 })]
        (ExecResult.frame (encodeBulkString (ascii ("v")))) ∧
    encodeBulkString (ascii ("v")) ≠ NULL_BULK_STRING := by
  refine ⟨?_, by decide, by decide⟩
  have h5 := exec_set5 cfgDefault 1000 [] (ascii ("set")) (ascii ("k")) (ascii ("v"))
    (ascii ("px")) (ascii ("-1000")) (-1000) (by decide) (by decide)
  have h0 : (1000 : ℚ) + ((-1000 : Int) : ℚ) = 0 := by norm_num
  rw [h0] at h5
  simpa [storeSet] using h5

/-- C4, amended: TTL monotonicity holds whenever the computed expiry
timestamp t0 plus k is not exactly zero (the zero timestamp is falsy in
the source and is treated as the absence of an expiry).  A SET with PX
stores the value with expiry t0 plus k; a GET strictly before that
instant returns the value as a bulk string; a GET at or after it removes
the entry and returns the null bulk string; and afterwards every GET of
that key returns null and leaves the keyspace unchanged until a new SET. -/
theorem c4_ttl_amended (cfg : Config) (store0 : Store) (t0 t : ℚ) (k : Int)
    (c0 K V a3 kstr g : Bytes)
    (hset : lowerBytes c0 = ascii ("set")) (hget : lowerBytes g = ascii ("get"))
    (hk : pyInt kstr = some k) (hnz : t0 + (k : ℚ) ≠ 0)
    (hnd : (store0.map Prod.fst).Nodup) :
    execute_commands cfg t0 store0 [c0, K, V, a3, kstr] =
      ExecOutcome.ok (storeSet store0 K { value := V, px := some (t0 + k) })
        (ExecResult.frame (encodeSimple 43 OK_B)) ∧
    (t < t0 + k →
      execute_commands cfg t (storeSet store0 K { value := V, px := some (t0 + k) })
          [g, K] =
        ExecOutcome.ok (storeSet store0 K { value := V, px := some (t0 + k) })
          (ExecResult.frame (encodeBulkString V))) ∧
    (t0 + k ≤ t →
      execute_commands cfg t (storeSet store0 K { value := V, px := some (t0 + k) })
          [g, K] =
        ExecOutcome.ok (storeRemove store0 K) (ExecResult.frame NULL_BULK_STRING)) ∧
    (∀ t2 : ℚ, execute_commands cfg t2 (storeRemove store0 K) [g, K] =
      ExecOutcome.ok (storeRemove store0 K) (ExecResult.frame NULL_BULK_STRING)) := by
  refine ⟨exec_set5 cfg t0 store0 c0 K V a3 kstr k hset hk, ?_, ?_, ?_⟩
  · intro hlt
    rw [exec_get_found cfg t _ g K _ hget (storeGet_storeSet_self store0 K _)]
    have hlive : pxLive (Entry.px { value := V, px := some (t0 + (k : ℚ)) }) t = true := by
      simp only [pxLive, Bool.or_eq_true, beq_iff_eq, decide_eq_true_eq]
      exact Or.inr hlt
    rw [if_pos hlive]
  · intro hge
    rw [exec_get_found cfg t _ g K _ hget (storeGet_storeSet_self store0 K _)]
    have hdead : pxLive (Entry.px { value := V, px := some (t0 + (k : ℚ)) }) t = false := by
      simp only [pxLive, Bool.or_eq_false_iff, beq_eq_false_iff_ne, ne_eq,
        decide_eq_false_iff_not, not_lt]
      exact ⟨hnz, hge⟩
    rw [if_neg (by rw [hdead]; decide), storeRemove_storeSet]
  · intro t2
    exact exec_get_absent cfg t2 _ g K hget (storeGet_storeRemove_self store0 K hnd)

/-- Witness for the amended C4: SET k v PX 100 at time 0, GET at 150. -/
theorem c4_ttl_amended_witness :
    execute_commands cfgDefault 0 []
        [ascii ("set"), ascii ("k"), ascii ("v"), ascii ("px"), ascii ("100")] =
      ExecOutcome.ok
        (storeSet [] (ascii ("k")) { value := ascii ("v"), px := some (0 + (100 : Int)) })
        (ExecResult.frame (encodeSimple 43 OK_B)) ∧
    ((150 : ℚ) < 0 + (100 : Int) →
      execute_commands cfgDefault 150
          (storeSet [] (ascii ("k")) { value := ascii ("v"), px := some (0 + (100 : Int)) })
          [ascii ("get"), ascii ("k")] =
        ExecOutcome.ok
          (storeSet [] (ascii ("k")) { value := ascii ("v"), px := some (0 + (100 : Int)) })
          (ExecResult.frame (encodeBulkString (ascii ("v"))))) ∧
    ((0 : ℚ) + (100 : Int) ≤ 150 →
      execute_commands cfgDefault 150
          (storeSet [] (ascii ("k")) { value := ascii ("v"), px := some (0 + (100 : Int)) })
          [ascii ("get"), ascii ("k")] =
        ExecOutcome.ok (storeRemove [] (ascii ("k")))
          (ExecResult.frame NULL_BULK_STRING)) ∧
    (∀ t2 : ℚ, execute_commands cfgDefault t2 (storeRemove [] (ascii ("k")))
        [ascii ("get"), ascii ("k")] =
      ExecOutcome.ok (storeRemove [] (ascii ("k")))
        (ExecResult.frame NULL_BULK_STRING)) :=
  c4_ttl_amended cfgDefault [] 0 150 100 (ascii ("set")) (ascii ("k")) (ascii ("v"))
    (ascii ("px")) (ascii ("100")) (ascii ("get")) (by decide) (by decide) (by decide)
    (by norm_num) (by simp)

/-! ## Handler lemmas and claim C3 -/

theorem exec_replconf (cfg : Config) (t : ℚ) (s : Store) (c0 : Bytes) (args : List Bytes)
    (h0 : lowerBytes c0 = ascii ("replconf")) :
    execute_commands cfg t s (c0 :: args) =
      ExecOutcome.ok s (ExecResult.frame (encodeSimple 43 OK_B)) := by
  rw [execute_commands.eq_def]
  dsimp only
  rw [h0, if_neg (by decide), if_neg (by decide), if_neg (by decide),
    if_neg (by decide), if_neg (by decide), if_pos rfl]

theorem exec_set_other (cfg : Config) (t : ℚ) (s : Store) (c0 K V : Bytes)
    (rest : List Bytes) (h0 : lowerBytes c0 = ascii ("set"))
    (hlen : (c0 :: K :: V :: rest).length ≠ 5) :
    execute_commands cfg t s (c0 :: K :: V :: rest) =
      ExecOutcome.ok (storeSet s K { value := V, px := none })
        (ExecResult.frame (encodeSimple 43 OK_B)) := by
  rw [execute_commands.eq_def]
  dsimp only
  rw [h0, if_neg (by decide), if_neg (by decide), if_pos rfl]
  rw [if_neg hlen]

theorem regCheck_not_replconf (st : ConnState) (c0 : Bytes) (rest : List Bytes)
    (h : lowerBytes c0 ≠ ascii ("replconf")) :
    regCheck st (c0 :: rest) = some st := by
  rw [regCheck.eq_def]
  dsimp only
  rw [if_neg h]

/-- C3 counterexample: on a stream whose first byte is not the array
sigil the decoder yields the empty command vector and one handler
iteration writes the Simple Error Invalid Command frame to the client,
but the iteration then raises (IndexError on the empty vector at the
write-set test) and the connection task terminates instead of looping. -/
theorem c3_counterexample :
    (parse_commands [43, 97, 13, 10]).1 = [] ∧
    handlerStep cfgDefault 0
        { store := [], replicas := [], clientOut := [], shadow := none }
        (parse_commands [43, 97, 13, 10]).1 =
      ({ store := [], replicas := [],
         clientOut := [encodeSimple 45 INVALID_COMMAND_B], shadow := none }, true) := by
  exact ⟨by decide, by decide⟩

/-- C3, amended: a parse failure (here: any first byte other than the
array sigil) produces the empty command vector, and the handler
iteration on the empty vector writes the Simple Error Invalid Command
frame to whatever the writer variable currently denotes and then raises,
ending the connection task; the loop does not continue. -/
theorem c3_amended (cfg : Config) (t : ℚ) (st : ConnState) (b : Nat) (rest : Bytes)
    (hb : b ≠ 42) :
    (parse_commands (b :: rest)).1 = [] ∧
    handlerStep cfg t st [] =
      (writeCur st (encodeSimple 45 INVALID_COMMAND_B), true) := by
  constructor
  · rw [parse_commands, if_neg hb]
  · rfl

/-- Witness for the amended C3 at a concrete malformed stream. -/
theorem c3_amended_witness :
    (43 ≠ 42) ∧
    ((parse_commands [43, 97, 13, 10]).1 = [] ∧
      handlerStep cfgDefault 0
          { store := [], replicas := [[ascii ("x")]], clientOut := [], shadow := some 0 } [] =
        (writeCur { store := [], replicas := [[ascii ("x")]], clientOut := [], shadow := some 0 }
          (encodeSimple 45 INVALID_COMMAND_B), true)) :=
  ⟨by decide, c3_amended cfgDefault 0
    { store := [], replicas := [[ascii ("x")]], clientOut := [], shadow := some 0 }
    43 [97, 13, 10] (by decide)⟩

/-! ## Fan-out lemmas and claim C7 -/

theorem getD_map_append {l : List (List Bytes)} {blob : Bytes} :
    ∀ {i : Nat}, i < l.length →
      (l.map (fun buf => buf ++ [blob])).getD i [] = l.getD i [] ++ [blob] := by
  induction l with
  | nil => intro i h; simp at h
  | cons a l ih =>
    intro i h
    cases i with
    | zero => simp
    | succ i =>
      simp only [List.map_cons, List.getD_cons_succ]
      exact ih (by simpa using h)

theorem getD_set_self {l : List (List Bytes)} {x : List Bytes} :
    ∀ {i : Nat}, i < l.length → (l.set i x).getD i [] = x := by
  induction l with
  | nil => intro i h; simp at h
  | cons a l ih =>
    intro i h
    cases i with
    | zero => simp
    | succ i =>
      simp only [List.set, List.getD_cons_succ]
      exact ih (by simpa using h)

theorem getD_set_ne {l : List (List Bytes)} {x : List Bytes} :
    ∀ {i j : Nat}, i ≠ j → (l.set i x).getD j [] = l.getD j [] := by
  induction l with
  | nil => intro i j _; simp
  | cons a l ih =>
    intro i j hij
    cases i with
    | zero =>
      cases j with
      | zero => exact absurd rfl hij
      | succ j => simp
    | succ i =>
      cases j with
      | zero => simp
      | succ j =>
        simp only [List.set, List.getD_cons_succ]
        exact ih (fun hh => hij (by rw [hh]))

theorem writeCur_replicas_length (st : ConnState) (blob : Bytes) :
    (writeCur st blob).replicas.length = st.replicas.length := by
  rw [writeCur.eq_def]
  cases st.shadow with
  | none => rfl
  | some j => simp

theorem writeCur_store (st : ConnState) (blob : Bytes) :
    (writeCur st blob).store = st.store := by
  rw [writeCur.eq_def]
  cases st.shadow with
  | none => rfl
  | some j => rfl

theorem writeCur_replicas_getD (st : ConnState) (blob : Bytes) (i : Nat)
    (hi : i < st.replicas.length) :
    ∃ pre, (writeCur st blob).replicas.getD i [] = st.replicas.getD i [] ++ pre := by
  rw [writeCur.eq_def]
  cases hs : st.shadow with
  | none => exact ⟨[], by simp⟩
  | some j =>
    by_cases hij : j = i
    · subst hij
      refine ⟨[blob], ?_⟩
      simpa using getD_set_self hi
    · refine ⟨[], ?_⟩
      simpa using getD_set_ne hij

theorem fanOut_replicas_length (st : ConnState) (blob : Bytes) :
    (fanOut st blob).replicas.length = st.replicas.length := by
  rw [fanOut]
  by_cases h : st.replicas.isEmpty
  · rw [if_pos h]
  · rw [if_neg h]
    simp

theorem fanOut_replicas_getD (st : ConnState) (blob : Bytes) (i : Nat)
    (hi : i < st.replicas.length) :
    (fanOut st blob).replicas.getD i [] = st.replicas.getD i [] ++ [blob] := by
  rw [fanOut]
  have hne : st.replicas.isEmpty = false := by
    cases hl : st.replicas with
    | nil => rw [hl] at hi; simp at hi
    | cons a l => rfl
  rw [if_neg (by rw [hne]; decide)]
  exact getD_map_append hi

theorem handlerStep_set (cfg : Config) (t : ℚ) (st : ConnState)
    (c : List Bytes) (c0 : Bytes) (crest : List Bytes) (store2 : Store) (fr : Bytes)
    (hc : c = c0 :: crest)
    (h0 : lowerBytes c0 = ascii ("set"))
    (hex : execute_commands cfg t st.store c =
      ExecOutcome.ok store2 (ExecResult.frame fr)) :
    handlerStep cfg t st c =
      (fanOut (writeCur { st with store := store2 } fr)
        (encodeArray (c.map encodeBulkString)), false) := by
  subst hc
  rw [handlerStep.eq_def, regCheck_not_replconf st c0 crest (by rw [h0]; decide)]
  dsimp only
  rw [hex]
  dsimp only [writeResult]
  rw [if_pos h0]

theorem goodSet_shape (c : List Bytes) (h : goodSet c = true) :
    ∃ c0 K V rest, c = c0 :: K :: V :: rest ∧ lowerBytes c0 = ascii ("set") := by
  rcases c with _ | ⟨c0, _ | ⟨K, _ | ⟨V, rest⟩⟩⟩
  · simp [goodSet] at h
  · simp [goodSet] at h
  · simp [goodSet] at h
  · refine ⟨c0, K, V, rest, rfl, ?_⟩
    simp only [goodSet, Bool.and_eq_true, beq_iff_eq] at h
    exact h.1

theorem handlerStep_goodSet (cfg : Config) (t : ℚ) (st : ConnState) (c : List Bytes)
    (h : goodSet c = true) :
    (handlerStep cfg t st c).2 = false ∧
    (handlerStep cfg t st c).1.replicas.length = st.replicas.length ∧
    ∀ i, i < st.replicas.length →
      ∃ pre, (handlerStep cfg t st c).1.replicas.getD i [] =
        st.replicas.getD i [] ++ (pre ++ [encodeArray (c.map encodeBulkString)]) := by
  obtain ⟨c0, K, V, rest, rfl, h0⟩ := goodSet_shape c h
  have hexists : ∃ store2, execute_commands cfg t st.store (c0 :: K :: V :: rest) =
      ExecOutcome.ok store2 (ExecResult.frame (encodeSimple 43 OK_B)) := by
    by_cases hlen : (c0 :: K :: V :: rest).length = 5
    · rcases rest with _ | ⟨a3, _ | ⟨kstr, _ | _⟩⟩ <;> simp at hlen
      have hkk : (pyInt kstr).isSome = true := by
        simp only [goodSet, Bool.and_eq_true, Bool.or_eq_true, beq_iff_eq] at h
        rcases h.2 with hbad | hsome
        · simp at hbad
        · simpa using hsome
      obtain ⟨k, hk⟩ := Option.isSome_iff_exists.mp hkk
      exact ⟨_, exec_set5 cfg t st.store c0 K V a3 kstr k h0 hk⟩
    · exact ⟨_, exec_set_other cfg t st.store c0 K V rest h0 hlen⟩
  obtain ⟨store2, hex⟩ := hexists
  rw [handlerStep_set cfg t st _ c0 (K :: V :: rest) store2 _ rfl h0 hex]
  refine ⟨rfl, ?_, ?_⟩
  · rw [fanOut_replicas_length, writeCur_replicas_length]
  · intro i hi
    have hi2 : i < (writeCur { st with store := store2 } (encodeSimple 43 OK_B)).replicas.length := by
      rw [writeCur_replicas_length]
      exact hi
    obtain ⟨pre, hpre⟩ := writeCur_replicas_getD { st with store := store2 }
      (encodeSimple 43 OK_B) i hi
    refine ⟨pre, ?_⟩
    rw [fanOut_replicas_getD _ _ i hi2, hpre]
    simp [List.append_assoc]

theorem runSteps_goodSets (cfg : Config) :
    ∀ (steps : List (ℚ × List Bytes)) (st : ConnState),
    (∀ p ∈ steps, goodSet p.2 = true) →
    (runSteps cfg st steps).2 = false ∧
    (runSteps cfg st steps).1.replicas.length = st.replicas.length ∧
    ∀ i, i < st.replicas.length →
      ∃ ext, (runSteps cfg st steps).1.replicas.getD i [] =
          st.replicas.getD i [] ++ ext ∧
        List.Sublist (steps.map (fun p => encodeArray (p.2.map encodeBulkString))) ext := by
  intro steps
  induction steps with
  | nil =>
    intro st _
    refine ⟨rfl, rfl, fun i _ => ⟨[], by simp [runSteps], by simp⟩⟩
  | cons p steps ih =>
    intro st hg
    obtain ⟨t, c⟩ := p
    have hstep := handlerStep_goodSet cfg t st c (hg (t, c) (List.mem_cons_self _ _))
    cases hq : handlerStep cfg t st c with
    | mk st1 crashed =>
      rw [hq] at hstep
      obtain ⟨hfl, hlen, hget⟩ := hstep
      have hcr : crashed = false := hfl
      subst hcr
      have hrun : runSteps cfg st ((t, c) :: steps) = runSteps cfg st1 steps := by
        rw [runSteps.eq_def]
        dsimp only
        rw [hq]
      obtain ⟨ifl, ilen, iget⟩ := ih st1 (fun q hqm => hg q (List.mem_cons_of_mem _ hqm))
      refine ⟨by rw [hrun]; exact ifl, by rw [hrun, ilen]; exact hlen, ?_⟩
      intro i hi
      have hi1 : i < st1.replicas.length := by rw [hlen]; exact hi
      obtain ⟨ext, hext, hsub⟩ := iget i hi1
      obtain ⟨pre, hpre⟩ := hget i hi
      refine ⟨(pre ++ [encodeArray (c.map encodeBulkString)]) ++ ext, ?_, ?_⟩
      · rw [hrun, hext, hpre]
        simp [List.append_assoc]
      · simp only [List.map_cons]
        have h2 : List.Sublist (encodeArray (c.map encodeBulkString) ::
            steps.map (fun p => encodeArray (p.2.map encodeBulkString)))
            (encodeArray (c.map encodeBulkString) :: ext) := List.Sublist.cons₂ _ hsub
        have hshape2 : (pre ++ [encodeArray (c.map encodeBulkString)]) ++ ext =
            pre ++ (encodeArray (c.map encodeBulkString) :: ext) := by simp
        rw [hshape2]
        exact h2.trans (List.sublist_append_right pre _)

theorem handlerStep_register (cfg : Config) (t : ℚ) (st : ConnState)
    (c0 a1 : Bytes) (rest : List Bytes)
    (h0 : lowerBytes c0 = ascii ("replconf")) (ha : a1 = ascii ("listening-port")) :
    (handlerStep cfg t st (c0 :: a1 :: rest)).1.replicas.length =
      st.replicas.length + 1 ∧
    (handlerStep cfg t st (c0 :: a1 :: rest)).2 = false := by
  have hreg : regCheck st (c0 :: a1 :: rest) =
      some { st with replicas := st.replicas ++ [[]] } := by
    rw [regCheck.eq_def]
    dsimp only
    rw [if_pos h0, if_pos ha]
  rw [handlerStep.eq_def, hreg]
  dsimp only
  rw [exec_replconf cfg t _ c0 (a1 :: rest) h0]
  dsimp only [writeResult]
  rw [if_neg (by rw [h0]; decide)]
  refine ⟨?_, rfl⟩
  dsimp only
  rw [writeCur_replicas_length]
  simp

/-- C7: after a connection is registered through REPLCONF listening-port
the registry has grown by one sink, and a run of well-formed SET
commands (arbitrary interleaving point, modelled by quantifying over the
starting state) completes without exception, preserves the registry
size, and appends bytes to every registered replica buffer such that the
RESP array re-encodings of those SETs appear in issue order (as a
sublist of the appended segment: the source also routes some response
frames into the last replica buffer after rebinding its writer
variable). -/
theorem c7_fanout (cfg : Config) (st : ConnState) (steps : List (ℚ × List Bytes))
    (port : Bytes) (i : Nat)
    (hg : ∀ p ∈ steps, goodSet p.2 = true) (hi : i < st.replicas.length) :
    (handlerStep cfg 0 st
        (ascii ("REPLCONF") :: ascii ("listening-port") :: [port])).1.replicas.length =
      st.replicas.length + 1 ∧
    (runSteps cfg st steps).2 = false ∧
    (runSteps cfg st steps).1.replicas.length = st.replicas.length ∧
    ∃ ext, (runSteps cfg st steps).1.replicas.getD i [] =
        st.replicas.getD i [] ++ ext ∧
      List.Sublist (steps.map (fun p => encodeArray (p.2.map encodeBulkString))) ext := by
  obtain ⟨hrun1, hrun2, hrun3⟩ := runSteps_goodSets cfg steps st hg
  exact ⟨(handlerStep_register cfg 0 st _ _ [port] (by decide) rfl).1,
    hrun1, hrun2, hrun3 i hi⟩

/-- Witness for C7: one registered replica, then two SET commands. -/
theorem c7_fanout_witness :
    ((handlerStep cfgDefault 0
        { store := [], replicas := [[]], clientOut := [], shadow := none }
        (ascii ("REPLCONF") :: ascii ("listening-port") :: [ascii ("6380")])).1.replicas.length =
      (List.length ([[]] : List (List Bytes))) + 1) ∧
    (runSteps cfgDefault { store := [], replicas := [[]], clientOut := [], shadow := none }
        [((0 : ℚ), [ascii ("SET"), ascii ("a"), ascii ("b")]),
         ((0 : ℚ), [ascii ("set"), ascii ("c"), ascii ("d"), ascii ("px"), ascii ("50")])]).2 =
      false ∧
    (runSteps cfgDefault { store := [], replicas := [[]], clientOut := [], shadow := none }
        [((0 : ℚ), [ascii ("SET"), ascii ("a"), ascii ("b")]),
         ((0 : ℚ), [ascii ("set"), ascii ("d"), ascii ("px"), ascii ("50")].cons (ascii ("c")))]).1.replicas.length =
      List.length ([[]] : List (List Bytes)) ∧
    ∃ ext,
      (runSteps cfgDefault { store := [], replicas := [[]], clientOut := [], shadow := none }
          [((0 : ℚ), [ascii ("SET"), ascii ("a"), ascii ("b")]),
           ((0 : ℚ), [ascii ("set"), ascii ("c"), ascii ("d"), ascii ("px"), ascii ("50")])]).1.replicas.getD 0 [] =
        ([[]] : List (List Bytes)).getD 0 [] ++ ext ∧
      List.Sublist ([((0 : ℚ), [ascii ("SET"), ascii ("a"), ascii ("b")]),
         ((0 : ℚ), [ascii ("set"), ascii ("c"), ascii ("d"), ascii ("px"), ascii ("50")])].map
          (fun p => encodeArray (p.2.map encodeBulkString))) ext :=
  c7_fanout cfgDefault { store := [], replicas := [[]], clientOut := [], shadow := none }
    [((0 : ℚ), [ascii ("SET"), ascii ("a"), ascii ("b")]),
     ((0 : ℚ), [ascii ("set"), ascii ("c"), ascii ("d"), ascii ("px"), ascii ("50")])]
    (ascii ("6380")) 0 (by decide) (by decide)
/-! ## Handshake lemmas and claims C6, C8 -/

theorem parse_response_simple (l rest : Bytes) (hl : ∀ b ∈ l, b ≠ 13) :
    parse_response (43 :: (l ++ 13 :: 10 :: rest)) =
      some (RespVal.simple (stripCRLFEnds (l ++ [13, 10])), rest) := by
  rw [parse_response, if_neg (by decide), if_neg (by decide), if_pos rfl]
  rw [parseSimpleResp, readUntilCRLF_append l rest hl]
  rfl

theorem send_handshake_spec (l1 l2 l3 l4 rest : Bytes)
    (h1 : ∀ b ∈ l1, b ≠ 13) (h2 : ∀ b ∈ l2, b ≠ 13)
    (h3 : ∀ b ∈ l3, b ≠ 13) (h4 : ∀ b ∈ l4, b ≠ 13) :
    send_handshake (encodeSimple 43 l1 ++ encodeSimple 43 l2 ++ encodeSimple 43 l3 ++
        encodeSimple 43 l4 ++ rest) =
      some ([handshakeReq1, handshakeReq2, handshakeReq3, handshakeReq4], rest) := by
  have e1 : encodeSimple 43 l1 ++ encodeSimple 43 l2 ++ encodeSimple 43 l3 ++
      encodeSimple 43 l4 ++ rest =
      43 :: (l1 ++ 13 :: 10 :: (encodeSimple 43 l2 ++ (encodeSimple 43 l3 ++
        (encodeSimple 43 l4 ++ rest)))) := by
    simp [encodeSimple, CRLF]
  have e2 : encodeSimple 43 l2 ++ (encodeSimple 43 l3 ++ (encodeSimple 43 l4 ++ rest)) =
      43 :: (l2 ++ 13 :: 10 :: (encodeSimple 43 l3 ++ (encodeSimple 43 l4 ++ rest))) := by
    simp [encodeSimple, CRLF]
  have e3 : encodeSimple 43 l3 ++ (encodeSimple 43 l4 ++ rest) =
      43 :: (l3 ++ 13 :: 10 :: (encodeSimple 43 l4 ++ rest)) := by
    simp [encodeSimple, CRLF]
  have e4 : encodeSimple 43 l4 ++ rest = 43 :: (l4 ++ 13 :: 10 :: rest) := by
    simp [encodeSimple, CRLF]
  rw [send_handshake, e1, parse_response_simple l1 _ h1]
  dsimp only
  rw [e2, parse_response_simple l2 _ h2]
  dsimp only
  rw [e3, parse_response_simple l3 _ h3]
  dsimp only
  rw [e4, parse_response_simple l4 _ h4]

/-- C6 counterexample: a concrete primary byte stream holding the four
handshake replies, the RDB blob and then a propagated SET command.  The
handshake consumes exactly the four replies and returns; the RDB blob
and the complete, well-formed SET command remain unread on the socket,
no command is decoded from it and the executor is never invoked, so the
replica does not treat the socket as a command stream. -/
theorem c6_counterexample :
    send_handshake (encodeSimple 43 (ascii ("PONG")) ++ encodeSimple 43 (ascii ("OK")) ++
        encodeSimple 43 (ascii ("OK")) ++
        encodeSimple 43 (ascii ("FULLRESYNC 8371b4fb1155b71f4a04d3e1bc3e18c4a990aeeb 0")) ++
        ((36 :: natToDigits 88 ++ CRLF ++ rdb_state) ++
          encodeArray ([ascii ("SET"), ascii ("foo"), ascii ("bar")].map encodeBulkString))) =
      some ([handshakeReq1, handshakeReq2, handshakeReq3, handshakeReq4],
        (36 :: natToDigits 88 ++ CRLF ++ rdb_state) ++
          encodeArray ([ascii ("SET"), ascii ("foo"), ascii ("bar")].map encodeBulkString)) ∧
    (parse_commands
        (encodeArray ([ascii ("SET"), ascii ("foo"), ascii ("bar")].map encodeBulkString))).1 =
      [ascii ("SET"), ascii ("foo"), ascii ("bar")] := by
  exact ⟨by decide, by decide⟩

/-- C6, amended: once the PSYNC reply has been consumed the handshake
routine returns at once: over any primary stream made of four
CR-free simple-string replies followed by arbitrary further bytes, the
replica writes exactly the four fixed requests, consumes exactly the
four replies, leaves every later byte (including any propagated
commands) unread, and never invokes the executor, so propagated SETs do
not mutate the replica keyspace. -/
theorem c6_amended (l1 l2 l3 l4 rest : Bytes)
    (h1 : ∀ b ∈ l1, b ≠ 13) (h2 : ∀ b ∈ l2, b ≠ 13)
    (h3 : ∀ b ∈ l3, b ≠ 13) (h4 : ∀ b ∈ l4, b ≠ 13) :
    send_handshake (encodeSimple 43 l1 ++ encodeSimple 43 l2 ++ encodeSimple 43 l3 ++
        encodeSimple 43 l4 ++ rest) =
      some ([handshakeReq1, handshakeReq2, handshakeReq3, handshakeReq4], rest) :=
  send_handshake_spec l1 l2 l3 l4 rest h1 h2 h3 h4

/-- Witness for the amended C6 on a concrete stream with a trailing
propagated command left unconsumed. -/
theorem c6_amended_witness :
    (∀ b ∈ ascii ("PONG"), b ≠ 13) ∧
    send_handshake (encodeSimple 43 (ascii ("PONG")) ++ encodeSimple 43 (ascii ("OK")) ++
        encodeSimple 43 (ascii ("OK")) ++ encodeSimple 43 (ascii ("FULLRESYNC x 0")) ++
        encodeArray ([ascii ("set"), ascii ("a"), ascii ("b")].map encodeBulkString)) =
      some ([handshakeReq1, handshakeReq2, handshakeReq3, handshakeReq4],
        encodeArray ([ascii ("set"), ascii ("a"), ascii ("b")].map encodeBulkString)) :=
  ⟨by decide, c6_amended (ascii ("PONG")) (ascii ("OK")) (ascii ("OK"))
    (ascii ("FULLRESYNC x 0"))
    (encodeArray ([ascii ("set"), ascii ("a"), ascii ("b")].map encodeBulkString))
    (by decide) (by decide) (by decide) (by decide)⟩

/-- C8 counterexample: the node started with the default port 6379; the
second handshake request the spec mandates for that port differs from
the request the code writes, whose port field is the hard-coded literal
6380. -/
theorem c8_counterexample :
    handshakeReq2 ≠ specListeningPortRequest 6379 ∧
    send_handshake (encodeSimple 43 (ascii ("A")) ++ encodeSimple 43 (ascii ("B")) ++
        encodeSimple 43 (ascii ("C")) ++ encodeSimple 43 (ascii ("D")) ++ []) =
      some ([handshakeReq1, handshakeReq2, handshakeReq3, handshakeReq4], []) := by
  exact ⟨by decide, by decide⟩

/-- C8, amended: whenever the handshake completes, the second request it
has written is the RESP array REPLCONF listening-port 6380, with the
port field the string literal 6380 of the source, independent of the
port this node actually listens on. -/
theorem c8_amended (s : Bytes) (reqs : List Bytes) (rest : Bytes)
    (h : send_handshake s = some (reqs, rest)) :
    reqs.getD 1 [] = encodeArray
      [encodeBulkString (ascii ("replconf")), encodeBulkString (ascii ("listening-port")),
       encodeBulkString (ascii ("6380"))] := by
  rw [send_handshake] at h
  cases hp1 : parse_response s with
  | none => rw [hp1] at h; exact absurd h (by simp)
  | some q1 =>
    obtain ⟨v1, s1⟩ := q1
    rw [hp1] at h
    dsimp only at h
    cases hp2 : parse_response s1 with
    | none => rw [hp2] at h; exact absurd h (by simp)
    | some q2 =>
      obtain ⟨v2, s2⟩ := q2
      rw [hp2] at h
      dsimp only at h
      cases hp3 : parse_response s2 with
      | none => rw [hp3] at h; exact absurd h (by simp)
      | some q3 =>
        obtain ⟨v3, s3⟩ := q3
        rw [hp3] at h
        dsimp only at h
        cases hp4 : parse_response s3 with
        | none => rw [hp4] at h; exact absurd h (by simp)
        | some q4 =>
          obtain ⟨v4, s4⟩ := q4
          rw [hp4] at h
          dsimp only at h
          obtain ⟨hreqs, _⟩ := Prod.mk.injEq .. ▸ (Option.some.injEq .. ▸ h)
          rw [← hreqs]
          decide

/-- Witness for the amended C8 at a concrete completed handshake. -/
theorem c8_amended_witness :
    ([handshakeReq1, handshakeReq2, handshakeReq3, handshakeReq4].getD 1 []) =
      encodeArray
        [encodeBulkString (ascii ("replconf")), encodeBulkString (ascii ("listening-port")),
         encodeBulkString (ascii ("6380"))] :=
  c8_amended (encodeSimple 43 (ascii ("E")) ++ encodeSimple 43 (ascii ("F")) ++
      encodeSimple 43 (ascii ("G")) ++ encodeSimple 43 (ascii ("H")) ++ [])
    [handshakeReq1, handshakeReq2, handshakeReq3, handshakeReq4] [] (by decide)

end RedisPy
